import Mathlib

/-!
# Deadline supervision

A shallow embedding of `ara::phm::supervisors::DeadlineSupervision`
(`src/ara/phm/supervisors/deadline_supervision.cpp`).

Modelling conventions.

* `std::chrono::milliseconds` values are integers (a count of milliseconds).  The
  code only compares them, so no machine overflow can occur and `Int` is exact.
* `std::chrono::steady_clock` time points are integers counting clock ticks; one
  tick is one nanosecond, so a millisecond is `ticksPerMs` ticks.
* `std::function<void()>` is `Option κ`: `none` is the empty function object
  (`nullptr`), and calling it throws `std::bad_function_call`.  A call of a
  present callback is recorded in the ghost log `invoked`.
* `std::thread` is `Option Worker`: `none` is a thread object that is not
  joinable, `some w` is a joinable one whose thread function is in phase `w`.
  A thread stays joinable after its function has returned.
* `std::condition_variable`: `notify_one` turns a waiting worker into a notified
  one and is lost otherwise; `wait_for` returns `no_timeout` to a notified
  worker and `timeout` once `cMaxDeadline` has passed since the wait began.
  Spurious wakeups are not modelled, a spawned worker is taken to begin its
  wait at the clock reading of the call that spawned it, and the end of the
  wait is computed exactly.
* `std::mutex`: only `deadlineWorker` locks `mCvMutex`.  It holds the lock from
  the return of `wait_for` to the end of the thread function (`wait_for`
  releases it while the thread is blocked), so the lock is held exactly in the
  phase `resumed`.  No other function of the class touches the mutex, hence no
  statement of the report methods or of the destructor ever waits for it.
* The header is not part of the sources, so the initial values of
  `mTimeReference` and `mTargetIsReached` (which the constructor does not
  initialise) are parameters of the constructor.
-/

namespace ara.phm.supervisors

/-- Ticks of the steady clock in one millisecond (the clock period is a nanosecond). -/
def ticksPerMs : Int := 1000000

/-- A whole number of milliseconds expressed in clock ticks. -/
def ms (n : Int) : Int := n * ticksPerMs

/-- The `duration_cast` of a tick count to milliseconds: integer division that
truncates toward zero. -/
def duration_cast_ms (d : Int) : Int := Int.tdiv d ticksPerMs

/-- The result of `std::condition_variable::wait_for`. -/
inductive cv_status where
  | no_timeout
  | timeout
  deriving DecidableEq, Repr

/-- The exceptions the code can raise. -/
inductive Exception where
  | invalid_argument (what : String)
  | bad_function_call
  deriving DecidableEq, Repr

/-- Phase of the thread that executes `deadlineWorker`. -/
inductive Worker where
  /-- Blocked in `wait_for` since the given clock reading. -/
  | waiting (since : Int)
  /-- Blocked in `wait_for`, a notification has been delivered. -/
  | notified
  /-- The call of `wait_for` has returned the given status and the thread holds
  `mCvMutex`; the evaluation has not run yet. -/
  | resumed (cStatus : cv_status)
  /-- The thread function has returned. -/
  | returned
  /-- An exception escaped the thread function (`std::terminate`). -/
  | terminated (e : Exception)
  deriving DecidableEq, Repr

/-- The data members of a `DeadlineSupervision` object, with two ghost fields:
`invoked` logs the callbacks that were called, `started` counts the worker
threads ever created. -/
structure DeadlineSupervision (κ : Type) where
  cMinDeadline : Int
  cMaxDeadline : Int
  mCallback : Option κ
  mTimeReference : Int
  mTargetIsReached : Bool
  mDeadlineThread : Option Worker
  invoked : List κ
  started : Nat
  deriving DecidableEq, Repr

namespace DeadlineSupervision

variable {κ : Type}

/-- The constructor `DeadlineSupervision::DeadlineSupervision`.  The two member
initialisers are evaluated in the order written; each throws
`std::invalid_argument` when its condition fails. -/
def construct (minDeadline maxDeadline : Int) (callback : Option κ)
    (timeReference0 : Int) (targetIsReached0 : Bool) :
    Except Exception (DeadlineSupervision κ) :=
  if minDeadline < maxDeadline then
    if maxDeadline > 0 then
      .ok { cMinDeadline := minDeadline
            cMaxDeadline := maxDeadline
            mCallback := callback
            mTimeReference := timeReference0
            mTargetIsReached := targetIsReached0
            mDeadlineThread := none
            invoked := []
            started := 0 }
    else
      .error (.invalid_argument "Maximum deadline should be greater than zero.")
  else
    .error (.invalid_argument
      "Maximum deadline should be greater than the minimum deadline.")

/-- The call `mCallback()`: yields the list of callbacks invoked, or throws
`std::bad_function_call` when the function object is empty. -/
def call_mCallback (s : DeadlineSupervision κ) : Except Exception (List κ) :=
  match s.mCallback with
  | some f => .ok [f]
  | none => .error .bad_function_call

/-- The body of `deadlineWorker` after `wait_for` has returned `cStatus`;
`cTimeNow` is the value `steady_clock::now()` yields.  The result is the list of
callbacks invoked by this evaluation. -/
def deadlineWorker (s : DeadlineSupervision κ) (cStatus : cv_status) (cTimeNow : Int) :
    Except Exception (List κ) :=
  if cStatus == cv_status.timeout || !s.mTargetIsReached then
    s.call_mCallback
  else
    let cTimeDelta := duration_cast_ms (cTimeNow - s.mTimeReference)
    if cTimeDelta < s.cMinDeadline then
      s.call_mCallback
    else
      .ok []

/-- The test `mDeadlineThread.joinable()`. -/
def joinable (s : DeadlineSupervision κ) : Bool := s.mDeadlineThread.isSome

/-- The call `mDeadlineCv.notify_one()`. -/
def notify_one (s : DeadlineSupervision κ) : DeadlineSupervision κ :=
  match s.mDeadlineThread with
  | some (.waiting _) => { s with mDeadlineThread := some .notified }
  | _ => s

/-- The outcome of the pending `wait_for (_cvLock, cMaxDeadline)` of a worker in
phase `w` when it is scheduled at clock reading `now`; `none` when the wait
does not return. -/
def wait_for (w : Worker) (cMaxDeadline : Int) (now : Int) : Option cv_status :=
  match w with
  | .notified => some .no_timeout
  | .waiting since => if since + ms cMaxDeadline ≤ now then some .timeout else none
  | _ => none

/-- The object after `deadlineWorker` has run to its end with status `cStatus`
and clock reading `now`: the callbacks invoked are logged and the thread
function has returned, or it has ended by the exception thrown. -/
def afterEvaluation (cStatus : cv_status) (now : Int) (s : DeadlineSupervision κ) :
    DeadlineSupervision κ :=
  match s.deadlineWorker cStatus now with
  | .ok called => { s with invoked := s.invoked ++ called, mDeadlineThread := some .returned }
  | .error e => { s with mDeadlineThread := some (.terminated e) }

/-- The worker thread is scheduled at clock reading `now` and its pending
`wait_for` returns if it can: the thread owns `mCvMutex` again and holds the
status returned. -/
def workerResume (now : Int) (s : DeadlineSupervision κ) : DeadlineSupervision κ :=
  match s.mDeadlineThread with
  | none => s
  | some w =>
    match wait_for w s.cMaxDeadline now with
    | none => s
    | some cStatus => { s with mDeadlineThread := some (.resumed cStatus) }

/-- A resumed worker runs `deadlineWorker` to the end, the clock reading `now`;
the thread function returns (releasing `mCvMutex`) or ends by an exception. -/
def workerEvaluate (now : Int) (s : DeadlineSupervision κ) : DeadlineSupervision κ :=
  match s.mDeadlineThread with
  | some (.resumed cStatus) => afterEvaluation cStatus now s
  | _ => s

/-- The worker thread is scheduled at clock reading `now` and runs without
interruption: if its wait returns it evaluates the wakeup at once. -/
def runWorker (now : Int) (s : DeadlineSupervision κ) : DeadlineSupervision κ :=
  workerEvaluate now (workerResume now s)

/-- Whether `mCvMutex` is locked: only the worker locks it, between the return of
`wait_for` and the end of the thread function. -/
def mCvMutex_locked (s : DeadlineSupervision κ) : Bool :=
  match s.mDeadlineThread with
  | some (.resumed _) => true
  | _ => false

/-- First statement of `ReportSourceCheckpoint`:
`mTimeReference = steady_clock::now()`. -/
def ReportSourceCheckpoint_setTime (now : Int) (s : DeadlineSupervision κ) :
    DeadlineSupervision κ :=
  { s with mTimeReference := now }

/-- Second statement of `ReportSourceCheckpoint`: `mTargetIsReached = false`. -/
def ReportSourceCheckpoint_clearFlag (s : DeadlineSupervision κ) : DeadlineSupervision κ :=
  { s with mTargetIsReached := false }

/-- Third statement of `ReportSourceCheckpoint`: notify when the thread is
joinable, otherwise start the worker. -/
def ReportSourceCheckpoint_wake (now : Int) (s : DeadlineSupervision κ) :
    DeadlineSupervision κ :=
  if s.joinable then
    s.notify_one
  else
    { s with mDeadlineThread := some (.waiting now), started := s.started + 1 }

/-- The method `ReportSourceCheckpoint`, called when the clock reads `now`. -/
def ReportSourceCheckpoint (now : Int) (s : DeadlineSupervision κ) : DeadlineSupervision κ :=
  ReportSourceCheckpoint_wake now
    (ReportSourceCheckpoint_clearFlag (ReportSourceCheckpoint_setTime now s))

/-- First statement of `ReportTargetCheckpoint`: `mTargetIsReached = true`. -/
def ReportTargetCheckpoint_setFlag (s : DeadlineSupervision κ) : DeadlineSupervision κ :=
  { s with mTargetIsReached := true }

/-- The method `ReportTargetCheckpoint`. -/
def ReportTargetCheckpoint (s : DeadlineSupervision κ) : DeadlineSupervision κ :=
  notify_one (ReportTargetCheckpoint_setFlag s)

/-- The call `mDeadlineThread.join()`: blocks until the thread function has
ended.  A worker that still waits ends at its timeout; a worker that ended by
an exception has terminated the process. -/
def join (now : Int) (s : DeadlineSupervision κ) : Except Exception (DeadlineSupervision κ) :=
  let s1 :=
    match s.mDeadlineThread with
    | some (.waiting since) => runWorker (max now (since + ms s.cMaxDeadline)) s
    | _ => runWorker now s
  match s1.mDeadlineThread with
  | some (.terminated e) => .error e
  | _ => .ok { s1 with mDeadlineThread := none }

/-- The destructor.  `now` is the clock reading of the worker when the
notification resumes it. -/
def destruct (now : Int) (s : DeadlineSupervision κ) : Except Exception (DeadlineSupervision κ) :=
  if s.joinable then
    join now (notify_one { s with mCallback := none })
  else
    .ok s

end DeadlineSupervision

open DeadlineSupervision

/-- A call of a public method, or a scheduling of the worker thread. -/
inductive Event where
  | reportSource (now : Int)
  | reportTarget
  | worker (now : Int)
  deriving DecidableEq, Repr

/-- One statement of a method, or one of the two parts of a scheduling of the
worker thread. -/
inductive Stmt where
  | sourceSetTime (now : Int)
  | sourceClearFlag
  | sourceWake (now : Int)
  | targetSetFlag
  | targetNotify
  | workerResume (now : Int)
  | workerEvaluate (now : Int)
  deriving DecidableEq, Repr

/-- Execution of one statement. -/
def Stmt.exec {κ : Type} (st : Stmt) (s : DeadlineSupervision κ) : DeadlineSupervision κ :=
  match st with
  | .sourceSetTime now => ReportSourceCheckpoint_setTime now s
  | .sourceClearFlag => ReportSourceCheckpoint_clearFlag s
  | .sourceWake now => ReportSourceCheckpoint_wake now s
  | .targetSetFlag => ReportTargetCheckpoint_setFlag s
  | .targetNotify => notify_one s
  | .workerResume now => DeadlineSupervision.workerResume now s
  | .workerEvaluate now => DeadlineSupervision.workerEvaluate now s

/-- Execution of a schedule of statements, in order. -/
def execAll {κ : Type} (sts : List Stmt) (s : DeadlineSupervision κ) : DeadlineSupervision κ :=
  sts.foldl (fun acc st => st.exec acc) s

/-- Execution of one event: a whole method call, or a scheduling of the worker. -/
def Event.step {κ : Type} (e : Event) (s : DeadlineSupervision κ) : DeadlineSupervision κ :=
  match e with
  | .reportSource now => ReportSourceCheckpoint now s
  | .reportTarget => ReportTargetCheckpoint s
  | .worker now => runWorker now s

/-- Execution of a sequence of events, in order. -/
def run {κ : Type} (es : List Event) (s : DeadlineSupervision κ) : DeadlineSupervision κ :=
  es.foldl (fun acc e => e.step acc) s

/-- The statements an event consists of. -/
def Event.stmts : Event → List Stmt
  | .reportSource now => [.sourceSetTime now, .sourceClearFlag, .sourceWake now]
  | .reportTarget => [.targetSetFlag, .targetNotify]
  | .worker now => [.workerResume now, .workerEvaluate now]

/-- Whether an event is a source checkpoint report. -/
def Event.isSource : Event → Bool
  | .reportSource _ => true
  | _ => false

/-- The supervisor of the scenarios: window 10 ms to 100 ms, callback present,
no worker started yet. -/
def scenario {κ : Type} (cb : κ) : DeadlineSupervision κ :=
  { cMinDeadline := 10
    cMaxDeadline := 100
    mCallback := some cb
    mTimeReference := 0
    mTargetIsReached := false
    mDeadlineThread := none
    invoked := []
    started := 0 }

/-- Whether a statement is a scheduling of the worker thread. -/
def Stmt.isWorker : Stmt → Bool
  | .workerResume _ => true
  | .workerEvaluate _ => true
  | _ => false

/-- The pair of shared variables the worker reads. -/
def observedPair {κ : Type} (s : DeadlineSupervision κ) : Int × Bool :=
  (s.mTimeReference, s.mTargetIsReached)

/-- The calls of the interleaved run: a source report at 0, a target report,
and a second source report at 60 ms. -/
def tornCalls : List Event := [.reportSource 0, .reportTarget, .reportSource (ms 60)]

/-- The statements of the interleaved run up to the return of the wait of the
worker: the first two calls in full, then the worker resumes at 50 ms and holds
the mutex. -/
def tornHead : List Stmt :=
  [.sourceSetTime 0, .sourceClearFlag, .sourceWake 0, .targetSetFlag, .targetNotify,
   .workerResume (ms 50)]

/-- The interleaved run: while the resumed worker holds the mutex the second
source report executes its first statement; the worker then evaluates, with
clock reading 60 ms, before the second statement of that report. -/
def tornSchedule : List Stmt :=
  tornHead ++ [.sourceSetTime (ms 60), .workerEvaluate (ms 60), .sourceClearFlag,
    .sourceWake (ms 60)]

/-! ## Auxiliary lemmas -/

theorem ticksPerMs_pos : 0 < ticksPerMs := by decide

/-- Truncation of a non-negative tick count compares with a millisecond bound
exactly as the tick count compares with the bound expressed in ticks. -/
theorem duration_cast_ms_lt_iff (e m : Int) (he : 0 ≤ e) :
    duration_cast_ms e < m ↔ e < m * ticksPerMs := by
  unfold duration_cast_ms
  rw [Int.tdiv_eq_ediv he (le_of_lt ticksPerMs_pos)]
  exact Int.ediv_lt_iff_lt_mul ticksPerMs_pos

theorem duration_cast_ms_ms (m : Int) : duration_cast_ms (ms m) = m := by
  unfold duration_cast_ms ms
  exact Int.mul_tdiv_cancel m (ne_of_gt ticksPerMs_pos)

theorem deadlineWorker_timeout {κ : Type} (s : DeadlineSupervision κ) (now : Int) :
    s.deadlineWorker .timeout now = s.call_mCallback := by
  simp [deadlineWorker]

theorem deadlineWorker_flag_false {κ : Type} (s : DeadlineSupervision κ) (cStatus : cv_status)
    (now : Int) (h : s.mTargetIsReached = false) :
    s.deadlineWorker cStatus now = s.call_mCallback := by
  simp [deadlineWorker, h]

theorem deadlineWorker_flag_true {κ : Type} (s : DeadlineSupervision κ) (now : Int)
    (h : s.mTargetIsReached = true) :
    s.deadlineWorker .no_timeout now =
      if duration_cast_ms (now - s.mTimeReference) < s.cMinDeadline then s.call_mCallback
      else .ok [] := by
  simp [deadlineWorker, h]

theorem call_mCallback_some {κ : Type} (s : DeadlineSupervision κ) (cb : κ)
    (h : s.mCallback = some cb) : s.call_mCallback = .ok [cb] := by
  simp [call_mCallback, h]

theorem run_nil {κ : Type} (s : DeadlineSupervision κ) : run [] s = s := rfl

theorem run_cons {κ : Type} (e : Event) (es : List Event) (s : DeadlineSupervision κ) :
    run (e :: es) s = run es (e.step s) := rfl

/-- A whole method call is the execution of its statements in order. -/
theorem execAll_stmts {κ : Type} (e : Event) (s : DeadlineSupervision κ) :
    execAll e.stmts s = e.step s := by
  cases e <;> rfl

theorem notify_one_frame {κ : Type} (s : DeadlineSupervision κ) :
    s.notify_one.cMinDeadline = s.cMinDeadline ∧ s.notify_one.cMaxDeadline = s.cMaxDeadline ∧
    s.notify_one.mCallback = s.mCallback ∧ s.notify_one.mTimeReference = s.mTimeReference ∧
    s.notify_one.mTargetIsReached = s.mTargetIsReached ∧ s.notify_one.invoked = s.invoked ∧
    s.notify_one.started = s.started ∧ s.notify_one.joinable = s.joinable := by
  obtain ⟨a, b, c, d, e, t, i, n⟩ := s
  rcases t with _ | (w | _ | _ | _) <;> simp [notify_one, joinable]

/-- The evaluation does not read the thread object. -/
theorem afterEvaluation_thread {κ : Type} (cStatus : cv_status) (now : Int)
    (a b : Int) (c : Option κ) (d : Int) (e : Bool) (t u : Option Worker) (i : List κ) (n : Nat) :
    afterEvaluation cStatus now (DeadlineSupervision.mk a b c d e t i n)
      = afterEvaluation cStatus now (DeadlineSupervision.mk a b c d e u i n) :=
  rfl

/-- A worker whose wait returns when it is scheduled evaluates the wakeup. -/
theorem runWorker_of_wait {κ : Type} (now : Int) (s : DeadlineSupervision κ) (w : Worker)
    (cStatus : cv_status) (hw : s.mDeadlineThread = some w)
    (hwait : wait_for w s.cMaxDeadline now = some cStatus) :
    runWorker now s = afterEvaluation cStatus now s := by
  obtain ⟨a, b, c, d, e, t, i, n⟩ := s
  simp only at hw hwait
  subst hw
  simp only [runWorker, workerResume, hwait, workerEvaluate]
  exact afterEvaluation_thread _ _ _ _ _ _ _ _ _ _ _

/-- A resumed worker evaluates the wakeup with the status it holds. -/
theorem runWorker_of_resumed {κ : Type} (now : Int) (s : DeadlineSupervision κ)
    (cStatus : cv_status) (hw : s.mDeadlineThread = some (.resumed cStatus)) :
    runWorker now s = afterEvaluation cStatus now s := by
  obtain ⟨a, b, c, d, e, t, i, n⟩ := s
  simp only at hw
  subst hw
  simp [runWorker, workerResume, workerEvaluate, wait_for]

/-- A scheduling of the worker leaves the object as it is, or its wait returns
with some status and the wakeup is evaluated. -/
theorem runWorker_cases {κ : Type} (now : Int) (s : DeadlineSupervision κ) :
    runWorker now s = s ∨
    ∃ cStatus, s.joinable = true ∧ runWorker now s = afterEvaluation cStatus now s := by
  cases hw : s.mDeadlineThread with
  | none =>
    left
    simp [runWorker, workerResume, workerEvaluate, hw]
  | some w =>
    have hj : s.joinable = true := by simp [joinable, hw]
    cases hwait : wait_for w s.cMaxDeadline now with
    | some cStatus => exact Or.inr ⟨cStatus, hj, runWorker_of_wait now s w cStatus hw hwait⟩
    | none =>
      cases w with
      | resumed cStatus => exact Or.inr ⟨cStatus, hj, runWorker_of_resumed now s cStatus hw⟩
      | waiting since =>
        left
        simp [runWorker, workerResume, workerEvaluate, hw, hwait]
      | notified => simp [wait_for] at hwait
      | returned =>
        left
        simp [runWorker, workerResume, workerEvaluate, hw, hwait]
      | terminated e =>
        left
        simp [runWorker, workerResume, workerEvaluate, hw, hwait]

/-- A worker whose thread function has ended is not affected by a scheduling. -/
theorem runWorker_ended {κ : Type} (now : Int) (s : DeadlineSupervision κ)
    (h : s.mDeadlineThread = some .returned ∨ ∃ e, s.mDeadlineThread = some (.terminated e)) :
    runWorker now s = s := by
  obtain ⟨a, b, c, d, f, t, i, n⟩ := s
  rcases h with h | ⟨e, h⟩ <;> simp only at h <;> subst h <;>
    simp [runWorker, workerResume, workerEvaluate, wait_for]

theorem afterEvaluation_frame {κ : Type} (cStatus : cv_status) (now : Int)
    (s : DeadlineSupervision κ) :
    (afterEvaluation cStatus now s).cMinDeadline = s.cMinDeadline ∧
    (afterEvaluation cStatus now s).cMaxDeadline = s.cMaxDeadline ∧
    (afterEvaluation cStatus now s).mCallback = s.mCallback ∧
    (afterEvaluation cStatus now s).mTimeReference = s.mTimeReference ∧
    (afterEvaluation cStatus now s).mTargetIsReached = s.mTargetIsReached ∧
    (afterEvaluation cStatus now s).started = s.started ∧
    (afterEvaluation cStatus now s).joinable = true := by
  unfold afterEvaluation joinable
  split <;> simp

theorem runWorker_frame {κ : Type} (now : Int) (s : DeadlineSupervision κ) :
    (runWorker now s).cMinDeadline = s.cMinDeadline ∧
    (runWorker now s).cMaxDeadline = s.cMaxDeadline ∧
    (runWorker now s).mCallback = s.mCallback ∧
    (runWorker now s).mTimeReference = s.mTimeReference ∧
    (runWorker now s).mTargetIsReached = s.mTargetIsReached ∧
    (runWorker now s).started = s.started ∧ (runWorker now s).joinable = s.joinable := by
  rcases runWorker_cases now s with h | ⟨cStatus, hj, h⟩
  · rw [h]
    simp
  · rw [h, hj]
    exact afterEvaluation_frame cStatus now s

theorem step_started_joinable {κ : Type} (e : Event) (s : DeadlineSupervision κ) :
    (e.step s).joinable = (s.joinable || e.isSource) ∧
    (e.step s).started = s.started + (if !s.joinable && e.isSource then 1 else 0) := by
  cases e with
  | reportSource now =>
    obtain ⟨a, b, c, d, e, t, i, n⟩ := s
    rcases t with _ | (w | _ | _ | _) <;>
      simp [Event.step, Event.isSource, ReportSourceCheckpoint, ReportSourceCheckpoint_wake,
        ReportSourceCheckpoint_clearFlag, ReportSourceCheckpoint_setTime, notify_one, joinable]
  | reportTarget =>
    obtain ⟨a, b, c, d, e, t, i, n⟩ := s
    rcases t with _ | (w | _ | _ | _) <;>
      simp [Event.step, Event.isSource, ReportTargetCheckpoint, ReportTargetCheckpoint_setFlag,
        notify_one, joinable]
  | worker now =>
    have hf := runWorker_frame now s
    simp only [Event.step, Event.isSource]
    rw [hf.2.2.2.2.2.2, hf.2.2.2.2.2.1]
    simp

theorem run_started_joinable {κ : Type} (es : List Event) (s : DeadlineSupervision κ) :
    (run es s).joinable = (s.joinable || es.any Event.isSource) ∧
    (run es s).started
      = s.started + (if !s.joinable && es.any Event.isSource then 1 else 0) := by
  induction es generalizing s with
  | nil => simp [run_nil]
  | cons e es ih =>
    rw [run_cons]
    obtain ⟨h1, h2⟩ := step_started_joinable e s
    obtain ⟨i1, i2⟩ := ih (e.step s)
    rw [i1, i2, h1, h2]
    cases hj : s.joinable <;> cases he : e.isSource <;> simp [List.any_cons, he]

theorem step_flag_of_not_source {κ : Type} (e : Event) (s : DeadlineSupervision κ)
    (he : e.isSource = false) : (e.step s).mTargetIsReached = s.mTargetIsReached ∨
      (e.step s).mTargetIsReached = true := by
  cases e with
  | reportSource now => simp [Event.isSource] at he
  | reportTarget =>
    right
    have hf := notify_one_frame (ReportTargetCheckpoint_setFlag s)
    simp only [Event.step, ReportTargetCheckpoint]
    rw [hf.2.2.2.2.1]
    rfl
  | worker now => exact Or.inl (runWorker_frame now s).2.2.2.2.1

theorem run_flag_of_not_source {κ : Type} (es : List Event) (s : DeadlineSupervision κ)
    (hes : es.all (fun e => !e.isSource) = true) (hs : s.mTargetIsReached = true) :
    (run es s).mTargetIsReached = true := by
  induction es generalizing s with
  | nil => exact hs
  | cons e es ih =>
    rw [List.all_cons, Bool.and_eq_true] at hes
    rw [run_cons]
    apply ih _ hes.2
    have he : e.isSource = false := by simpa using hes.1
    rcases step_flag_of_not_source e s he with h | h
    · rw [h, hs]
    · exact h

theorem ReportSourceCheckpoint_flag {κ : Type} (now : Int) (s : DeadlineSupervision κ) :
    (ReportSourceCheckpoint now s).mTimeReference = now ∧
    (ReportSourceCheckpoint now s).mTargetIsReached = false := by
  obtain ⟨a, b, c, d, e, t, i, n⟩ := s
  rcases t with _ | (w | _ | _ | _) <;>
    simp [ReportSourceCheckpoint, ReportSourceCheckpoint_wake,
      ReportSourceCheckpoint_clearFlag, ReportSourceCheckpoint_setTime, notify_one, joinable]

/-- With a present callback an evaluation never throws: it invokes the callback
once or not at all. -/
theorem deadlineWorker_present {κ : Type} (s : DeadlineSupervision κ) (cb : κ)
    (hcb : s.mCallback = some cb) (cStatus : cv_status) (now : Int) :
    s.deadlineWorker cStatus now = .ok [cb] ∨ s.deadlineWorker cStatus now = .ok [] := by
  unfold deadlineWorker
  rw [call_mCallback_some s cb hcb]
  split
  · exact Or.inl rfl
  · simp only []
    split
    · exact Or.inl rfl
    · exact Or.inr rfl

/-- The phase of the thread after an evaluation: the thread function has ended,
normally or by an exception. -/
theorem afterEvaluation_ends {κ : Type} (cStatus : cv_status) (now : Int)
    (s : DeadlineSupervision κ) :
    (afterEvaluation cStatus now s).mDeadlineThread = some .returned ∨
    ∃ e, (afterEvaluation cStatus now s).mDeadlineThread = some (.terminated e) := by
  unfold afterEvaluation
  split
  · exact Or.inl rfl
  · exact Or.inr ⟨_, rfl⟩

/-- With a present callback the evaluation logs one call or none and the thread
function returns. -/
theorem afterEvaluation_present {κ : Type} (cStatus : cv_status) (now : Int)
    (s : DeadlineSupervision κ) (cb : κ) (hcb : s.mCallback = some cb) :
    (afterEvaluation cStatus now s).mDeadlineThread = some .returned ∧
    ((afterEvaluation cStatus now s).invoked = s.invoked ++ [cb] ∨
      (afterEvaluation cStatus now s).invoked = s.invoked) := by
  unfold afterEvaluation
  rcases deadlineWorker_present s cb hcb cStatus now with hd | hd <;> rw [hd] <;> simp

/-- A constructed object holds the callback given, has no joinable thread, has
started no worker and has an empty log. -/
theorem construct_ok {κ : Type} {minDeadline maxDeadline : Int} {callback : Option κ}
    {timeReference0 : Int} {targetIsReached0 : Bool} {s : DeadlineSupervision κ}
    (h : construct minDeadline maxDeadline callback timeReference0 targetIsReached0 = .ok s) :
    s.mCallback = callback ∧ s.joinable = false ∧ s.started = 0 ∧ s.invoked = [] := by
  unfold construct at h
  split at h
  · split at h
    · cases h
      simp [joinable]
    · cases h
  · cases h

/-! ## Construction -/

/-- C1: construction succeeds exactly when minDeadline < maxDeadline and
maxDeadline > 0; otherwise it fails with std::invalid_argument and yields no
object; on success the stored deadlines are the arguments and no worker thread
exists. -/
theorem C1_construct_iff {κ : Type} (minDeadline maxDeadline : Int) (callback : Option κ)
    (timeReference0 : Int) (targetIsReached0 : Bool) :
    ((∃ s, construct minDeadline maxDeadline callback timeReference0 targetIsReached0
        = .ok s) ↔ (minDeadline < maxDeadline ∧ maxDeadline > 0)) ∧
    ((minDeadline ≥ maxDeadline ∨ maxDeadline ≤ 0) →
      ∃ what, construct minDeadline maxDeadline callback timeReference0 targetIsReached0
        = .error (.invalid_argument what)) ∧
    (∀ s, construct minDeadline maxDeadline callback timeReference0 targetIsReached0 = .ok s →
      s.cMinDeadline = minDeadline ∧ s.cMaxDeadline = maxDeadline ∧ s.mCallback = callback ∧
      s.mDeadlineThread = none ∧ s.joinable = false ∧ s.started = 0 ∧ s.invoked = []) := by
  unfold construct
  by_cases h1 : minDeadline < maxDeadline
  · by_cases h2 : maxDeadline > 0
    · simp only [h1, h2, if_true]
      refine ⟨⟨fun _ => ⟨trivial, trivial⟩, fun _ => ⟨_, rfl⟩⟩, ?_, ?_⟩
      · intro h
        rcases h with h | h <;> omega
      · intro s hs
        cases hs
        simp [joinable]
    · simp only [h1, h2, if_true, if_false]
      refine ⟨⟨?_, ?_⟩, fun _ => ⟨_, rfl⟩, ?_⟩
      · rintro ⟨s, hs⟩
        cases hs
      · rintro ⟨-, h⟩
        exact h.elim
      · intro s hs
        cases hs
  · simp only [h1, if_false]
    refine ⟨⟨?_, ?_⟩, fun _ => ⟨_, rfl⟩, ?_⟩
    · rintro ⟨s, hs⟩
      cases hs
    · rintro ⟨h, -⟩
      exact h.elim
    · intro s hs
      cases hs

/-- Witness of C1: the window 10 ms to 100 ms is accepted, the windows 100 ms to
10 ms and -5 ms to 0 ms are rejected. -/
theorem C1_construct_iff_witness :
    (∃ s, construct 10 100 (some 7) 0 false = .ok s) ∧
    (∃ what, construct 100 10 (some 7) 0 false = .error (.invalid_argument what)) ∧
    (∃ what, construct (-5) 0 (some 7) 0 false = .error (.invalid_argument what)) :=
  ⟨(C1_construct_iff 10 100 (some 7) 0 false).1.2 (by decide),
   (C1_construct_iff 100 10 (some 7) 0 false).2.1 (Or.inl (by decide)),
   (C1_construct_iff (-5) 0 (some 7) 0 false).2.1 (Or.inr (by decide))⟩

/-! ## The evaluation of one wakeup -/

/-- C2: with a present callback, an evaluation after wait_for returned timeout
invokes the callback exactly once, whatever mTargetIsReached, mTimeReference and
the clock are; a worker whose wait has lasted cMaxDeadline does so when it is
scheduled; in Scenario B (window 10 ms to 100 ms, source at 0, no target) there
is no invocation up to 99 ms and exactly one from 100 ms on. -/
theorem C2_timeout_invokes_once {κ : Type} (s : DeadlineSupervision κ) (cb : κ)
    (hcb : s.mCallback = some cb) :
    (∀ now, s.deadlineWorker .timeout now = .ok [cb]) ∧
    (∀ since now, s.mDeadlineThread = some (.waiting since) →
      since + ms s.cMaxDeadline ≤ now →
      (runWorker now s).invoked = s.invoked ++ [cb]) ∧
    (run [.reportSource 0, .worker (ms 99)] (scenario cb)).invoked = [] ∧
    (run [.reportSource 0, .worker (ms 100)] (scenario cb)).invoked = [cb] ∧
    (run [.reportSource 0, .worker (ms 100), .worker (ms 250)] (scenario cb)).invoked
      = [cb] := by
  refine ⟨fun now => ?_, fun since now hw hle => ?_, rfl, rfl, rfl⟩
  · rw [deadlineWorker_timeout, call_mCallback_some s cb hcb]
  · rw [runWorker_of_wait now s _ .timeout hw (by simp [wait_for, hle])]
    simp [afterEvaluation, deadlineWorker_timeout, call_mCallback_some s cb hcb]

/-- Witness of C2 on the Scenario B supervisor after its source report. -/
theorem C2_timeout_invokes_once_witness :
    (ReportSourceCheckpoint 0 (scenario 7)).deadlineWorker .timeout (ms 100) = .ok [7] :=
  (C2_timeout_invokes_once (ReportSourceCheckpoint 0 (scenario 7)) 7 rfl).1 (ms 100)

/-- C3: with a present callback, an evaluation after a notification with
mTargetIsReached set invokes the callback once when the elapsed time is below
cMinDeadline and not at all otherwise; an elapsed time equal to cMinDeadline is
no violation; Scenario A (target at 50 ms) gives no invocation and Scenario C
(target at 5 ms) exactly one. -/
theorem C3_notified_target_reached {κ : Type} (s : DeadlineSupervision κ) (cb : κ) (now : Int)
    (hcb : s.mCallback = some cb) (hflag : s.mTargetIsReached = true) :
    s.deadlineWorker .no_timeout now
      = .ok (if duration_cast_ms (now - s.mTimeReference) < s.cMinDeadline then [cb] else []) ∧
    (s.mTimeReference ≤ now →
      s.deadlineWorker .no_timeout now
        = .ok (if now - s.mTimeReference < ms s.cMinDeadline then [cb] else [])) ∧
    (now - s.mTimeReference = ms s.cMinDeadline → s.deadlineWorker .no_timeout now = .ok []) ∧
    (run [.reportSource 0, .reportTarget, .worker (ms 50)] (scenario cb)).invoked = [] ∧
    (run [.reportSource 0, .reportTarget, .worker (ms 5)] (scenario cb)).invoked = [cb] := by
  have key : s.deadlineWorker .no_timeout now
      = .ok (if duration_cast_ms (now - s.mTimeReference) < s.cMinDeadline
          then [cb] else []) := by
    rw [deadlineWorker_flag_true s now hflag, call_mCallback_some s cb hcb]
    split <;> rfl
  refine ⟨key, fun hle => ?_, fun heq => ?_, rfl, rfl⟩
  · rw [key]
    have h := duration_cast_ms_lt_iff (now - s.mTimeReference) s.cMinDeadline (by omega)
    unfold ms
    by_cases hlt : duration_cast_ms (now - s.mTimeReference) < s.cMinDeadline
    · rw [if_pos hlt, if_pos (h.mp hlt)]
    · rw [if_neg hlt, if_neg (fun h2 => hlt (h.mpr h2))]
  · rw [key, heq, duration_cast_ms_ms, if_neg (lt_irrefl _)]

/-- Witness of C3: a target reported 5 ms after the source, window from 10 ms. -/
theorem C3_notified_target_reached_witness :
    (ReportTargetCheckpoint (ReportSourceCheckpoint 0 (scenario 7))).deadlineWorker
      .no_timeout (ms 5) = .ok [7] :=
  (C3_notified_target_reached (ReportTargetCheckpoint (ReportSourceCheckpoint 0 (scenario 7)))
    7 (ms 5) rfl rfl).1

/-- C6: with a present callback, an evaluation after a notification while
mTargetIsReached is still false invokes the callback exactly once, whatever
mTimeReference, the clock and cMinDeadline are; a notified worker does so when
it is scheduled; in Scenario D the second source report at 20 ms produces this
single invocation. -/
theorem C6_notified_target_pending {κ : Type} (s : DeadlineSupervision κ) (cb : κ)
    (hcb : s.mCallback = some cb) (hflag : s.mTargetIsReached = false) :
    (∀ now, s.deadlineWorker .no_timeout now = .ok [cb]) ∧
    (∀ now timeReference minDeadline,
      deadlineWorker { s with mTimeReference := timeReference, cMinDeadline := minDeadline }
        .no_timeout now = .ok [cb]) ∧
    (∀ now, s.mDeadlineThread = some .notified →
      (runWorker now s).invoked = s.invoked ++ [cb]) ∧
    (run [.reportSource 0, .reportSource (ms 20), .worker (ms 20)] (scenario cb)).invoked
      = [cb] := by
  refine ⟨fun now => ?_, fun now tr md => ?_, fun now hw => ?_, rfl⟩
  · rw [deadlineWorker_flag_false s _ now hflag, call_mCallback_some s cb hcb]
  · have h := deadlineWorker_flag_false
      { s with mTimeReference := tr, cMinDeadline := md } .no_timeout now hflag
    rw [h]
    exact call_mCallback_some _ cb hcb
  · rw [runWorker_of_wait now s _ .no_timeout hw rfl]
    simp [afterEvaluation, deadlineWorker_flag_false s _ now hflag,
      call_mCallback_some s cb hcb]

/-- Witness of C6 on the Scenario D supervisor after its two source reports. -/
theorem C6_notified_target_pending_witness :
    (ReportSourceCheckpoint (ms 20) (ReportSourceCheckpoint 0 (scenario 7))).deadlineWorker
      .no_timeout (ms 20) = .ok [7] :=
  (C6_notified_target_pending
    (ReportSourceCheckpoint (ms 20) (ReportSourceCheckpoint 0 (scenario 7))) 7 rfl rfl).1 (ms 20)

/-- C10: for a non-negative elapsed tick count the truncation to whole
milliseconds does not change the comparison with cMinDeadline; 9.999999 ms
against 10 ms is a violation, exactly 10 ms is not, and with cMinDeadline at
most zero a notified evaluation with mTargetIsReached set invokes nothing. -/
theorem C10_truncation_exact {κ : Type} :
    (∀ e m : Int, 0 ≤ e → (duration_cast_ms e < m ↔ e < m * ticksPerMs)) ∧
    (∀ (s : DeadlineSupervision κ) (cb : κ) (now : Int), s.mCallback = some cb →
      s.mTargetIsReached = true → s.cMinDeadline = 10 →
      (now - s.mTimeReference = 9999999 → s.deadlineWorker .no_timeout now = .ok [cb]) ∧
      (now - s.mTimeReference = 10000000 → s.deadlineWorker .no_timeout now = .ok [])) ∧
    (∀ (s : DeadlineSupervision κ) (now : Int), s.mTargetIsReached = true →
      s.cMinDeadline ≤ 0 → s.mTimeReference ≤ now →
      s.deadlineWorker .no_timeout now = .ok []) := by
  refine ⟨duration_cast_ms_lt_iff, fun s cb now hcb hflag hmin => ⟨fun h => ?_, fun h => ?_⟩,
    fun s now hflag hmin hle => ?_⟩
  · rw [deadlineWorker_flag_true s now hflag, call_mCallback_some s cb hcb, h, hmin]
    rfl
  · rw [deadlineWorker_flag_true s now hflag, call_mCallback_some s cb hcb, h, hmin]
    rfl
  · rw [deadlineWorker_flag_true s now hflag]
    have h := duration_cast_ms_lt_iff (now - s.mTimeReference) s.cMinDeadline (by omega)
    have hpos := ticksPerMs_pos
    have : ¬ (now - s.mTimeReference < s.cMinDeadline * ticksPerMs) := by
      have : s.cMinDeadline * ticksPerMs ≤ 0 :=
        Int.mul_nonpos_of_nonpos_of_nonneg hmin (le_of_lt hpos)
      omega
    rw [if_neg (fun h2 => this (h.mp h2))]

/-- Witness of C10: 9999999 ticks truncate to 9 ms, below 10 ms. -/
theorem C10_truncation_exact_witness :
    (duration_cast_ms 9999999 < 10 ↔ (9999999 : Int) < 10 * ticksPerMs) ∧
    deadlineWorker { scenario 7 with mTargetIsReached := true, cMinDeadline := -3 }
      .no_timeout 4 = .ok [] :=
  ⟨(@C10_truncation_exact Nat).1 9999999 10 (by decide),
   (@C10_truncation_exact Nat).2.2
     { scenario 7 with mTargetIsReached := true, cMinDeadline := -3 } 4 rfl (by decide)
     (by decide)⟩

/-! ## The report entry points -/

/-- C7: ReportSourceCheckpoint stores the clock reading in mTimeReference and
clears mTargetIsReached; it starts a worker when the thread is not joinable and
only notifies otherwise; over every sequence of source reports, target reports
and worker schedulings on a constructed object, the number of workers ever
started is 0 before the first source report and 1 from then on, and a source
report starts a worker exactly when none was started before. -/
theorem C7_report_source_single_worker {κ : Type} :
    (∀ (s : DeadlineSupervision κ) (now : Int),
      (ReportSourceCheckpoint now s).mTimeReference = now ∧
      (ReportSourceCheckpoint now s).mTargetIsReached = false ∧
      (ReportSourceCheckpoint now s).started = s.started + (if s.joinable then 0 else 1) ∧
      (s.joinable = true → ReportSourceCheckpoint now s
        = notify_one { s with mTimeReference := now, mTargetIsReached := false }) ∧
      (s.joinable = false →
        (ReportSourceCheckpoint now s).mDeadlineThread = some (.waiting now))) ∧
    (∀ (minDeadline maxDeadline : Int) (callback : Option κ) (timeReference0 : Int)
      (targetIsReached0 : Bool) (s0 : DeadlineSupervision κ),
      construct minDeadline maxDeadline callback timeReference0 targetIsReached0 = .ok s0 →
      ∀ es : List Event,
        (run es s0).started = (if es.any Event.isSource then 1 else 0) ∧
        (run es s0).started ≤ 1 ∧
        ∀ now, ((ReportSourceCheckpoint now (run es s0)).started = (run es s0).started + 1
          ↔ (run es s0).started = 0)) := by
  constructor
  · intro s now
    obtain ⟨a, b, c, d, e, t, i, n⟩ := s
    rcases t with _ | (w | _ | _ | _) <;>
      simp [ReportSourceCheckpoint, ReportSourceCheckpoint_wake,
        ReportSourceCheckpoint_clearFlag, ReportSourceCheckpoint_setTime, notify_one, joinable]
  · intro minDeadline maxDeadline callback timeReference0 targetIsReached0 s0 h0 es
    obtain ⟨-, hj, hn, -⟩ := construct_ok h0
    obtain ⟨rj, rs⟩ := run_started_joinable es s0
    rw [hj, hn] at rs
    rw [hj] at rj
    have hcount : (run es s0).started = (if es.any Event.isSource then 1 else 0) := by
      rw [rs]
      simp
    refine ⟨hcount, ?_, fun now => ?_⟩
    · rw [hcount]
      split <;> simp
    · have hstep := (step_started_joinable (.reportSource now) (run es s0)).2
      simp only [Event.step, Event.isSource] at hstep
      rw [hstep, rj, hcount]
      cases es.any Event.isSource <;> simp

/-- Witness of C7: a source report, a target report, a worker scheduling and two
more source reports on the scenario object start one worker. -/
theorem C7_report_source_single_worker_witness :
    (run [.reportSource 0, .reportTarget, .worker (ms 50), .reportSource (ms 200),
      .reportSource (ms 300)] (scenario 7)).started = 1 :=
  ((@C7_report_source_single_worker Nat).2 10 100 (some 7) 0 false (scenario 7) rfl
    [.reportSource 0, .reportTarget, .worker (ms 50), .reportSource (ms 200),
      .reportSource (ms 300)]).1

/-- C8: ReportTargetCheckpoint sets mTargetIsReached and leaves the deadlines,
mTimeReference, the callback, the log, the joinability of the thread and the
count of workers unchanged (it starts no worker, also without a prior source
report); it is total and idempotent; the flag stays set across further target
reports and worker schedulings, and the next ReportSourceCheckpoint clears it. -/
theorem C8_report_target_frame {κ : Type} (s : DeadlineSupervision κ) :
    (ReportTargetCheckpoint s).mTargetIsReached = true ∧
    (ReportTargetCheckpoint s).mTimeReference = s.mTimeReference ∧
    (ReportTargetCheckpoint s).cMinDeadline = s.cMinDeadline ∧
    (ReportTargetCheckpoint s).cMaxDeadline = s.cMaxDeadline ∧
    (ReportTargetCheckpoint s).mCallback = s.mCallback ∧
    (ReportTargetCheckpoint s).invoked = s.invoked ∧
    (ReportTargetCheckpoint s).joinable = s.joinable ∧
    (ReportTargetCheckpoint s).started = s.started ∧
    ReportTargetCheckpoint { s with mDeadlineThread := none }
      = { s with mDeadlineThread := none, mTargetIsReached := true } ∧
    ReportTargetCheckpoint (ReportTargetCheckpoint s) = ReportTargetCheckpoint s ∧
    (∀ es : List Event, es.all (fun e => !e.isSource) = true →
      (run es (ReportTargetCheckpoint s)).mTargetIsReached = true ∧
      ∀ now, (ReportSourceCheckpoint now
        (run es (ReportTargetCheckpoint s))).mTargetIsReached = false) := by
  have hf := notify_one_frame (ReportTargetCheckpoint_setFlag s)
  have hflag : (ReportTargetCheckpoint s).mTargetIsReached = true := hf.2.2.2.2.1
  refine ⟨hflag, hf.2.2.2.1, hf.1, hf.2.1, hf.2.2.1, hf.2.2.2.2.2.1, hf.2.2.2.2.2.2.2,
    hf.2.2.2.2.2.2.1, rfl, ?_, fun es hes => ⟨run_flag_of_not_source es _ hes hflag,
      fun now => (ReportSourceCheckpoint_flag now _).2⟩⟩
  obtain ⟨a, b, c, d, e, t, i, n⟩ := s
  rcases t with _ | (w | _ | _ | _) <;>
    simp [ReportTargetCheckpoint, ReportTargetCheckpoint_setFlag, notify_one]

/-- Witness of C8: after a target report without a prior source report, two more
target reports keep the flag set. -/
theorem C8_report_target_frame_witness :
    (run [.reportTarget, .reportTarget] (ReportTargetCheckpoint (scenario 7))).mTargetIsReached
      = true :=
  ((C8_report_target_frame (scenario 7)).2.2.2.2.2.2.2.2.2.2
    [.reportTarget, .reportTarget] rfl).1

/-! ## The life of the worker -/

/-- C4, as the code has it: the worker is not reused.  Whenever its wait returns,
the worker evaluates that one wakeup and the thread function ends (it returns,
or it ends by an exception when the callback is absent); it does not park
again, so a further scheduling of the worker does nothing.  In Scenario D the
callback is invoked exactly once, for the abandoned first cycle, and the
thread function has returned after that evaluation. -/
theorem C4_worker_single_shot {κ : Type} (s : DeadlineSupervision κ) (now : Int) (w : Worker)
    (cStatus : cv_status) (hw : s.mDeadlineThread = some w)
    (hwait : wait_for w s.cMaxDeadline now = some cStatus) :
    ((runWorker now s).mDeadlineThread = some .returned ∨
      ∃ e, (runWorker now s).mDeadlineThread = some (.terminated e)) ∧
    (∀ cb, s.mCallback = some cb → (runWorker now s).mDeadlineThread = some .returned) ∧
    (∀ later, runWorker later (runWorker now s) = runWorker now s) ∧
    (∀ cb : κ,
      (run [.reportSource 0, .reportSource (ms 20), .worker (ms 20)] (scenario cb)).invoked
        = [cb] ∧
      (run [.reportSource 0, .reportSource (ms 20), .worker (ms 20)]
        (scenario cb)).mDeadlineThread = some .returned) := by
  have hrun := runWorker_of_wait now s w cStatus hw hwait
  have hends := afterEvaluation_ends cStatus now s
  rw [← hrun] at hends
  refine ⟨hends, fun cb hcb => ?_, fun later => ?_, fun cb => ⟨rfl, rfl⟩⟩
  · rw [hrun]
    exact (afterEvaluation_present cStatus now s cb hcb).1
  · exact runWorker_ended later _ hends

/-- Witness of C4: the notified worker of Scenario D, scheduled at 20 ms, ends
by returning. -/
theorem C4_worker_single_shot_witness :
    (runWorker (ms 20)
      (run [.reportSource 0, .reportSource (ms 20)] (scenario 7))).mDeadlineThread
      = some .returned :=
  (C4_worker_single_shot (run [.reportSource 0, .reportSource (ms 20)] (scenario 7)) (ms 20)
    .notified .no_timeout rfl rfl).2.1 7 rfl

/-- C4 as stated fails: in Scenario D the worker has returned after the first
evaluation instead of parking again, and with no target reported the callback is
not invoked a second time, neither 100 ms after the second source report nor
after a third source report. -/
theorem C4_second_cycle_not_evaluated :
    (run [.reportSource 0, .reportSource (ms 20), .worker (ms 20)]
      (scenario 7)).mDeadlineThread = some .returned ∧
    (run [.reportSource 0, .reportSource (ms 20), .worker (ms 20), .worker (ms 120),
      .worker (ms 1000)] (scenario 7)).invoked = [7] ∧
    (run [.reportSource 0, .reportSource (ms 20), .worker (ms 20), .reportSource (ms 200),
      .worker (ms 300)] (scenario 7)).invoked = [7] := by
  decide

/-! ## Destruction -/

/-- C5 fails on the code: destroying the scenario object 20 ms after its source
report, or 5 ms after a source and a target report, makes the worker call the
emptied function object, which throws bad_function_call; only a wakeup with the
target reached inside the window ends normally. -/
theorem C5_destructor_worker_throws :
    destruct (ms 20) (ReportSourceCheckpoint 0 (scenario 7))
      = .error .bad_function_call ∧
    destruct (ms 5) (ReportTargetCheckpoint (ReportSourceCheckpoint 0 (scenario 7)))
      = .error .bad_function_call ∧
    destruct (ms 50) (ReportTargetCheckpoint (ReportSourceCheckpoint 0 (scenario 7)))
      = .ok { scenario 7 with mCallback := none, mTargetIsReached := true, started := 1 } :=
  ⟨rfl, rfl, rfl⟩

/-! ## Interleaving of the report statements with the worker -/

/-- C9 fails on the code: the schedule tornSchedule keeps the statements of the
three calls in program order; after tornHead the resumed worker holds mCvMutex
and the pair is (0, true); the first write of the second source report is
executed all the same and changes the pair to (60 ms, true) under the lock of
the worker; the worker then reads this pair, which is the pair after none of
the calls, and invokes the callback, while on the pair left by the preceding
call it would invoke nothing at the same clock reading. -/
theorem C9_worker_reads_torn_pair :
    tornSchedule.filter (fun st => !st.isWorker) = tornCalls.flatMap Event.stmts ∧
    mCvMutex_locked (execAll tornHead (scenario 7)) = true ∧
    observedPair (execAll tornHead (scenario 7)) = (0, true) ∧
    mCvMutex_locked (execAll (tornHead ++ [.sourceSetTime (ms 60)]) (scenario 7)) = true ∧
    observedPair (execAll (tornHead ++ [.sourceSetTime (ms 60)]) (scenario 7))
      = (ms 60, true) ∧
    (execAll (tornHead ++ [.sourceSetTime (ms 60), .workerEvaluate (ms 60)])
      (scenario 7)).invoked = [7] ∧
    (execAll tornSchedule (scenario 7)).invoked = [7] ∧
    observedPair (run (tornCalls.take 1) (scenario 7)) = (0, false) ∧
    observedPair (run (tornCalls.take 2) (scenario 7)) = (0, true) ∧
    observedPair (run (tornCalls.take 3) (scenario 7)) = (ms 60, false) ∧
    (execAll (tornHead ++ [.workerEvaluate (ms 60)]) (scenario 7)).invoked = [] := by
  decide

end ara.phm.supervisors
